import Mathlib

/-!
Verification development for the SmartGrid repository.

This file gives a shallow embedding of the two numerical subsystems of the
repository — the demand forecaster (`src/forecasting.py`, class
`DemandForecaster`) and the load-balancing simulator (`src/utils.py`,
function `simulate_load_balancing`) — and proves the frozen claims about
them.

Modelling conventions:
- Python floats are modelled as `ℚ` (exact arithmetic); `round(x, 2)` is
  modelled by `round2`, rounding half to even as Python's `round` does.
- Calendar dates are modelled as epoch-day numbers (`ℤ`); date components
  (day of week, month, day of month) are derived arithmetically.
- The scikit-learn parts (StandardScaler, RandomForestRegressor,
  train_test_split) are not numerical subjects of any claim; they are
  modelled by explicit function parameters: `fit` stands for the whole
  `train_test_split` + `RandomForestRegressor.fit` + scoring pipeline and
  may fail, and `predict` stands for `scaler.transform` composed with
  `model.predict` and may fail.  Every claim proved about the forecaster
  holds for all such functions, or is witnessed at concrete ones.
- `np.random` draws in the load balancer are passed in explicitly through
  a `ScenarioRand` record, so that theorems quantify over all draws.
-/

/-! ## Rounding: Python `round(x, 2)` (half to even) -/

/-- Round a rational to the nearest integer, ties going to the even
integer, as Python's built-in `round` does. -/
def roundHalfEven (q : ℚ) : ℤ :=
  if Int.fract q < 1/2 then ⌊q⌋
  else if 1/2 < Int.fract q then ⌊q⌋ + 1
  else if ⌊q⌋ % 2 = 0 then ⌊q⌋ else ⌊q⌋ + 1

/-- Python's `round(q, 2)`. -/
def round2 (q : ℚ) : ℚ := ((roundHalfEven (q * 100) : ℤ) : ℚ) / 100

/-! ## Calendar arithmetic

Dates are epoch-day numbers (`0` = 1970-01-01, a Thursday).  `dayofweekOf`
matches pandas' `Timestamp.dayofweek` (Monday = 0); `monthOf`/`dayOfMonthOf`
implement the standard civil-from-days algorithm with floor division (Lean's
`Int.ediv`/`Int.emod` for a positive divisor).
-/

def dayofweekOf (z : ℤ) : ℤ := (z + 3).emod 7

/-- Convert an epoch-day number to (year, month, day) in the proleptic
Gregorian calendar. -/
def civilOfDays (z0 : ℤ) : ℤ × ℤ × ℤ :=
  let z := z0 + 719468
  let era := z.ediv 146097
  let doe := z - era * 146097
  let yoe := (doe - doe.ediv 1460 + doe.ediv 36524 - doe.ediv 146096).ediv 365
  let y := yoe + era * 400
  let doy := doe - (365 * yoe + yoe.ediv 4 - yoe.ediv 100)
  let mp := (5 * doy + 2).ediv 153
  let d := doy - (153 * mp + 2).ediv 5 + 1
  let m := mp + (if mp < 10 then 3 else -9)
  (y + (if m ≤ 2 then 1 else 0), m, d)

def monthOf (z : ℤ) : ℤ := (civilOfDays z).2.1

def dayOfMonthOf (z : ℤ) : ℤ := (civilOfDays z).2.2

/-! ## Forecaster: data model

`HistPoint` is one entry of the `historical_data` list consumed by
`DemandForecaster`; of its fields only `date` and `average_demand` are read
by `_prepare_features` and `forecast_demand`, so only those are modelled.
-/

structure HistPoint where
  date : ℤ
  average_demand : ℚ
  deriving DecidableEq, Repr, Inhabited

/-- One row of the feature frame built by `_prepare_features` (and mutated
in place as `last_row` during the forecast loop).  The four calendar
features (`dayofweek`, `month`, `day`, `is_weekend`) are recomputed from
`date` whenever they are needed, exactly as the source recomputes them. -/
structure FeatureRow where
  date : ℤ
  average_demand : ℚ
  demand_lag1 : ℚ
  demand_lag2 : ℚ
  demand_lag7 : ℚ
  demand_rolling_mean3 : ℚ
  demand_rolling_mean7 : ℚ
  deriving DecidableEq, Repr, Inhabited

/-- The nine-feature vector `last_row[feature_columns]` fed to the scaler
and model: dayofweek, month, day, is_weekend, lag1, lag2, lag7,
rolling_mean3, rolling_mean7. -/
structure FeatureVec where
  dayofweek : ℚ
  month : ℚ
  day : ℚ
  is_weekend : ℚ
  demand_lag1 : ℚ
  demand_lag2 : ℚ
  demand_lag7 : ℚ
  demand_rolling_mean3 : ℚ
  demand_rolling_mean7 : ℚ
  deriving DecidableEq, Repr, Inhabited

def featureVecOf (z : ℤ) (r : FeatureRow) : FeatureVec :=
  { dayofweek := (dayofweekOf z : ℚ)
    month := (monthOf z : ℚ)
    day := (dayOfMonthOf z : ℚ)
    is_weekend := if 5 ≤ dayofweekOf z then 1 else 0
    demand_lag1 := r.demand_lag1
    demand_lag2 := r.demand_lag2
    demand_lag7 := r.demand_lag7
    demand_rolling_mean3 := r.demand_rolling_mean3
    demand_rolling_mean7 := r.demand_rolling_mean7 }

/-- One entry of the forecast series: `date` is the epoch-day of the
`"%Y-%m-%d"`-formatted date string emitted by the source. -/
structure ForecastPoint where
  date : ℤ
  predicted_demand : ℚ
  lower_bound : ℚ
  upper_bound : ℚ
  deriving DecidableEq, Repr, Inhabited

/-! ## Forecaster: feature preparation (`_prepare_features`) -/

/-- Stable insertion keeping dates ascending: the new point goes after all
points whose date is less than or equal to its own. -/
def insertByDate (p : HistPoint) : List HistPoint → List HistPoint
  | [] => [p]
  | q :: rest => if p.date < q.date then p :: q :: rest else q :: insertByDate p rest

/-- `df.sort_values('date')`: sort the history by date ascending. -/
def sortByDate (l : List HistPoint) : List HistPoint :=
  l.foldr insertByDate []

/-- The feature row at position `i` of the date-sorted series `s`.  Lags
are the `average_demand` 1, 2 and 7 positions earlier; the rolling means
are pandas trailing windows including the current row (rows 3 and 7 wide).
Only called with `7 ≤ i < s.length`, where every access is in range. -/
def mkRow (s : List HistPoint) (i : ℕ) : FeatureRow :=
  let avg := fun j => (s.getD j default).average_demand
  { date := (s.getD i default).date
    average_demand := avg i
    demand_lag1 := avg (i - 1)
    demand_lag2 := avg (i - 2)
    demand_lag7 := avg (i - 7)
    demand_rolling_mean3 := (avg (i - 2) + avg (i - 1) + avg i) / 3
    demand_rolling_mean7 :=
      (avg (i - 6) + avg (i - 5) + avg (i - 4) + avg (i - 3) +
        avg (i - 2) + avg (i - 1) + avg i) / 7 }

def rowsFrom (s : List HistPoint) : ℕ → ℕ → List FeatureRow
  | _, 0 => []
  | i, n + 1 => mkRow s i :: rowsFrom s (i + 1) n

/-- The rows surviving `df.dropna()`: positions `7 .. n-1` of the sorted
series (the first seven rows have an undefined `demand_lag7`). -/
def prepareRows (h : List HistPoint) : List FeatureRow :=
  let s := sortByDate h
  rowsFrom s 7 (s.length - 7)

/-- `_prepare_features`: build the surviving feature rows.  With no
surviving row (history shorter than 8 points, including an empty history)
the source raises — `StandardScaler.fit_transform` rejects an empty `X`,
and an empty history already fails at `df['date']` — which the embedding
renders as an `Except.error`.  Feature scaling itself is folded into the
abstract `predict`/`fit` parameters. -/
def prepare_features (h : List HistPoint) : Except String (List FeatureRow) :=
  let rows := prepareRows h
  if rows.isEmpty then Except.error "insufficient data to build features" else Except.ok rows

/-- `train_model`: prepare the features, then run the abstract
split-fit-score pipeline `fit`.  Any exception is caught by the source and
reported as a failure result, rendered here as `Except.error`. -/
def train_model (fit : List FeatureRow → Except String Unit) (h : List HistPoint) :
    Except String Unit :=
  match prepare_features h with
  | Except.error e => Except.error e
  | Except.ok rows => fit rows

/-! ## Forecaster: fallback forecast (`_get_fallback_forecast`) -/

def mkFallbackPoint (now : ℤ) (i : ℕ) : ForecastPoint :=
  let daily_variation : ℚ := 15000 * ((((i % 7 : ℕ) : ℚ) - 3) / 3)
  let predicted_demand : ℚ := 320000 + daily_variation
  { date := now + (i : ℤ)
    predicted_demand := round2 predicted_demand
    lower_bound := round2 (predicted_demand * (95 / 100))
    upper_bound := round2 (predicted_demand * (105 / 100)) }

def fallbackFrom (now : ℤ) : ℕ → ℕ → List ForecastPoint
  | _, 0 => []
  | i, n + 1 => mkFallbackPoint now i :: fallbackFrom now (i + 1) n

/-- `_get_fallback_forecast`: the deterministic fallback series, `for i in
range(1, forecast_days + 1)`.  It reads no history at all; `now` is the
call-time date (`datetime.now()`). -/
def get_fallback_forecast (now : ℤ) (forecast_days : ℕ) : List ForecastPoint :=
  fallbackFrom now 1 forecast_days

/-! ## Forecaster: iterative forecast loop and `forecast_demand` -/

/-- One result of `forecast_demand`, mirroring the three shapes of the
returned dict: `{"success": True, "forecast": ...}`, a training failure
`{"success": False, "error": ...}` (no forecast of any kind), and a
prediction failure `{"success": False, "error": ..., "fallback_forecast":
...}`. -/
inductive ForecastResult where
  | ok (forecast : List ForecastPoint)
  | trainFail (error : String)
  | predictFail (error : String) (fallback_forecast : List ForecastPoint)
  deriving DecidableEq, Repr, Inhabited

/-- The body of `for i in range(1, forecast_days + 1)` in
`forecast_demand`: emit the point for day `i` and update `last_row` for
the next iteration.  `r` is the mutable `last_row`, `prev` the previous
iteration's emitted `predicted_demand` (`forecast_results[-2]`, absent on
the first iteration).  Lag shifting and the two rolling-mean updates
follow the source lines 152-169 literally. -/
def forecastStep (predict : FeatureVec → Except String ℚ) (last_date : ℤ)
    (r : FeatureRow) (prev : Option ℚ) (i : ℕ) :
    Except String (ForecastPoint × FeatureRow) :=
  let forecast_date := last_date + (i : ℤ)
  match predict (featureVecOf forecast_date r) with
  | Except.error e => Except.error e
  | Except.ok predicted_demand =>
    let pt : ForecastPoint :=
      { date := forecast_date
        predicted_demand := round2 predicted_demand
        lower_bound := round2 (predicted_demand * (95 / 100))
        upper_bound := round2 (predicted_demand * (105 / 100)) }
    let lag7 := r.demand_lag2
    let lag2 := r.demand_lag1
    let lag1 := predicted_demand
    let rm3 := (lag1 + lag2 +
      (match prev with
       | none => r.average_demand
       | some q => q)) / 3
    let rm7 := (lag1 + lag2 + lag7 + predicted_demand * 4) / 7
    Except.ok (pt,
      { r with
        date := forecast_date
        demand_lag1 := lag1
        demand_lag2 := lag2
        demand_lag7 := lag7
        demand_rolling_mean3 := rm3
        demand_rolling_mean7 := rm7 })

/-- The forecast loop, iterating `forecastStep` for `n` remaining days. -/
def forecastLoop (predict : FeatureVec → Except String ℚ) (last_date : ℤ)
    (r : FeatureRow) (prev : Option ℚ) (i : ℕ) : ℕ → Except String (List ForecastPoint)
  | 0 => Except.ok []
  | n + 1 =>
    match forecastStep predict last_date r prev i with
    | Except.error e => Except.error e
    | Except.ok pr =>
      match forecastLoop predict last_date pr.2 (some pr.1.predicted_demand) (i + 1) n with
      | Except.error e => Except.error e
      | Except.ok rest => Except.ok (pr.1 :: rest)

/-- The last date of the sorted history (`df['date'].max()`; the sorted
frame's last surviving row carries the maximal date). -/
def lastHistDate (h : List HistPoint) : ℤ :=
  ((sortByDate h).getLastD default).date

/-- `forecast_demand` on a fresh `DemandForecaster` instance
(`self.model is None`, so the call trains first).  If training fails the
training result — with no forecast series of any kind — is returned
directly (source lines 109-112).  Otherwise features are rebuilt and the
iterative loop runs; any exception there is caught and answered with the
fallback forecast (source lines 176-183). -/
def forecast_demand (fit : List FeatureRow → Except String Unit)
    (predict : FeatureVec → Except String ℚ) (now : ℤ)
    (historical_data : List HistPoint) (forecast_days : ℕ) : ForecastResult :=
  match train_model fit historical_data with
  | Except.error e => ForecastResult.trainFail e
  | Except.ok _ =>
    match prepare_features historical_data with
    | Except.error e => ForecastResult.predictFail e (get_fallback_forecast now forecast_days)
    | Except.ok rows =>
      let last_date := lastHistDate historical_data
      let last_row := rows.getLastD default
      match forecastLoop predict last_date last_row none 1 forecast_days with
      | Except.error e => ForecastResult.predictFail e (get_fallback_forecast now forecast_days)
      | Except.ok pts => ForecastResult.ok pts

/-- A result carries a usable forecast series of `n` points when it has
`n` points under the `forecast` key or under the `fallback_forecast`
key. -/
def usableSeries : ForecastResult → ℕ → Bool
  | ForecastResult.ok f, n => f.length == n
  | ForecastResult.predictFail _ fb, n => fb.length == n
  | ForecastResult.trainFail _, _ => false

/-! ## Load balancer: data model (`simulate_load_balancing`, src/utils.py)

Region maps are modelled as association lists in Python-dict insertion
order.  A crucial point of the source is line 202, `balanced_status =
initial_status.copy()`: a *shallow* copy, so `initial_status[r]` and
`balanced_status[r]` are the same inner dict for every region.  Every
in-place update during rebalancing (balance transfers, the frequency
write) is therefore visible through both names; the embedding carries one
region map through the pipeline and returns it for both result fields.
-/

structure RegionInput where
  generation : ℚ
  consumption : ℚ
  frequency : ℚ
  deriving DecidableEq, Repr, Inhabited

structure RegionStatus where
  generation : ℚ
  consumption : ℚ
  balance : ℚ
  frequency : ℚ
  deriving DecidableEq, Repr, Inhabited

abbrev StatusMap := List (String × RegionStatus)

structure BalancingAction where
  source : String
  target : String
  amount : ℚ
  deriving DecidableEq, Repr, Inhabited

structure BalancingMetrics where
  initial_imbalance : ℚ
  remaining_imbalance : ℚ
  improvement_percentage : ℚ
  transfers_count : ℕ
  total_power_transferred : ℚ
  deriving DecidableEq, Repr, Inhabited

structure BalancingResult where
  scen : String
  initial_status : StatusMap
  balanced_status : StatusMap
  balancing_actions : List BalancingAction
  metrics : BalancingMetrics
  deriving DecidableEq, Repr, Inhabited

/-- The `np.random` draws consumed by the scenario block, passed in
explicitly: `peakU1 r`/`peakU2 r` are the two `np.random.random()` draws
made for region `r` under `peak`; `surplusChoice` is the
`np.random.choice(..., size=2, replace=False)` result and `surpU1`/`surpU2`
the per-region draws under `renewable_surplus`; `outageChoice`, `outU1`,
`outU2` similarly for `outage`. -/
structure ScenarioRand where
  peakU1 : String → ℚ
  peakU2 : String → ℚ
  surplusChoice : List String
  surpU1 : String → ℚ
  surpU2 : String → ℚ
  outageChoice : String
  outU1 : ℚ
  outU2 : ℚ

def regionKeys (m : StatusMap) : List String := m.map Prod.fst

def lookupStatus (k : String) : StatusMap → Option RegionStatus
  | [] => none
  | (k2, st) :: rest => if k2 = k then some st else lookupStatus k rest

def getBal (m : StatusMap) (k : String) : ℚ :=
  ((lookupStatus k m).map RegionStatus.balance).getD 0

def getFreq (m : StatusMap) (k : String) : ℚ :=
  ((lookupStatus k m).map RegionStatus.frequency).getD 0

/-- In-place update of one region's dict (`status[k] = f(status[k])`):
rewrites the first entry with key `k`, leaves the map unchanged when `k`
is absent (the source would raise a `KeyError` instead, but every access
in the pipeline is to a present key). -/
def adjustRegion (k : String) (f : RegionStatus → RegionStatus) : StatusMap → StatusMap
  | [] => []
  | (k2, st) :: rest =>
    if k2 = k then (k2, f st) :: rest else (k2, st) :: adjustRegion k f rest

/-- `balanced_status[k]['balance'] += d`. -/
def adjustBal (k : String) (d : ℚ) (m : StatusMap) : StatusMap :=
  adjustRegion k (fun st => { st with balance := st.balance + d }) m

def sumBalance (m : StatusMap) : ℚ :=
  (m.map (fun e => e.2.balance)).sum

def sumGenConsDiff (m : StatusMap) : ℚ :=
  (m.map (fun e => e.2.generation - e.2.consumption)).sum

/-- Source lines 150-160: derive each region's initial status, with
`balance = generation - consumption`. -/
def buildInitialStatus (regional_data : List (String × RegionInput)) : StatusMap :=
  regional_data.map (fun e =>
    (e.1, { generation := e.2.generation
            consumption := e.2.consumption
            balance := e.2.generation - e.2.consumption
            frequency := e.2.frequency }))

/-- Source lines 162-195: the scenario perturbation block.  `peak` rescales
every region's consumption by `1.1 + u1 * 0.1` and drops frequency by
`0.05 + u2 * 0.1`; `renewable_surplus` rescales generation of the two
chosen regions by `1.15 + u1 * 0.15` and raises their frequency by
`0.05 + u2 * 0.1`; `outage` rescales the chosen region's generation by
`0.6 + u1 * 0.2` and drops its frequency by `0.2 + u2 * 0.2`.  Each branch
recomputes `balance = generation - consumption` for the touched regions.
`np.random.choice` raises on a population smaller than the sample, which
the surrounding `try` turns into an error result (`Except.error` here).
Any other scenario string leaves the map untouched. -/
def applyScenario (scen : String) (rand : ScenarioRand) (m : StatusMap) :
    Except String StatusMap :=
  if scen = "peak" then
    Except.ok (m.map (fun e =>
      let consumption := e.2.consumption * (11/10 + rand.peakU1 e.1 * (1/10))
      (e.1, { e.2 with
              consumption := consumption
              balance := e.2.generation - consumption
              frequency := e.2.frequency - (1/20 + rand.peakU2 e.1 * (1/10)) })))
  else if scen = "renewable_surplus" then
    if m.length < 2 then Except.error "cannot take a sample larger than the population"
    else
      Except.ok (rand.surplusChoice.foldl (fun acc r =>
        adjustRegion r (fun st =>
          let generation := st.generation * (23/20 + rand.surpU1 r * (3/20))
          { st with
            generation := generation
            balance := generation - st.consumption
            frequency := st.frequency + (1/20 + rand.surpU2 r * (1/10)) }) acc) m)
  else if scen = "outage" then
    if m.length = 0 then Except.error "a must be non-empty"
    else
      Except.ok (adjustRegion rand.outageChoice (fun st =>
        let generation := st.generation * (3/5 + rand.outU1 * (1/5))
        { st with
          generation := generation
          balance := generation - st.consumption
          frequency := st.frequency - (1/5 + rand.outU2 * (1/5)) }) m)
  else Except.ok m

/-! ## Load balancer: greedy rebalancing -/

/-- Stable insertion for `sorted(keys, key=balance, reverse=True)`: a key
goes after every key of balance greater than or equal to its own. -/
def insertByBalDesc (m : StatusMap) (r : String) : List String → List String
  | [] => [r]
  | x :: xs => if getBal m x < getBal m r then r :: x :: xs else x :: insertByBalDesc m r xs

def sortKeysByBalDesc (m : StatusMap) : List String :=
  (regionKeys m).foldr (insertByBalDesc m) []

/-- The inner loop over `deficit_regions` for one surplus region `src`
(source lines 215-240): skip exhausted deficits, transfer
`min(available_surplus, needed_power)`, record the action with the amount
rounded to 2 decimals, and break once the remaining surplus is
exhausted. -/
def transferFrom (src : String) : List String → ℚ → StatusMap →
    List BalancingAction → StatusMap × List BalancingAction
  | [], _, m, acts => (m, acts)
  | d :: rest, avail, m, acts =>
    -- needed_power = abs(balance of d); skip when non-positive
    if |getBal m d| ≤ 0 then transferFrom src rest avail m acts
    -- transfer_amount = min(available_surplus, needed_power); skip when non-positive
    else if min avail |getBal m d| ≤ 0 then transferFrom src rest avail m acts
    -- subtract from src, add to d, record the action, decrement the surplus;
    -- break out of the loop once the remaining surplus is exhausted
    else if avail - min avail |getBal m d| ≤ 0 then
      (adjustBal d (min avail |getBal m d|) (adjustBal src (-(min avail |getBal m d|)) m),
       acts ++ [{ source := src, target := d, amount := round2 (min avail |getBal m d|) }])
    else
      transferFrom src rest (avail - min avail |getBal m d|)
        (adjustBal d (min avail |getBal m d|) (adjustBal src (-(min avail |getBal m d|)) m))
        (acts ++ [{ source := src, target := d, amount := round2 (min avail |getBal m d|) }])

/-- The outer loop over `surplus_regions` (source lines 210-240). -/
def runTransfers (defs : List String) : List String → StatusMap →
    List BalancingAction → StatusMap × List BalancingAction
  | [], m, acts => (m, acts)
  | s :: rest, m, acts =>
    -- available_surplus = balance of s; skip the region when non-positive
    if getBal m s ≤ 0 then runTransfers defs rest m acts
    else
      runTransfers defs rest (transferFrom s defs (getBal m s) m acts).1
        (transferFrom s defs (getBal m s) m acts).2

/-- Source lines 204-240: sort the keys by balance descending, split into
surplus (`balance > 0`) and deficit (`balance < 0`) keys, then run the
greedy transfer loops. -/
def greedyRebalance (m : StatusMap) : StatusMap × List BalancingAction :=
  -- surplus_regions and deficit_regions filter the balance-sorted keys
  runTransfers ((sortKeysByBalDesc m).filter (fun r => decide (getBal m r < 0)))
    ((sortKeysByBalDesc m).filter (fun r => decide (0 < getBal m r))) m []

/-- Source lines 242-248: the frequency re-estimation loop.  Because of the
shallow copy, `balanced_status[region]['balance']` and
`initial_status[region]['balance']` read the same mutated value, so
`balance_change` is `st.balance - st.balance`.  Python raises
`ZeroDivisionError` when a region's consumption is zero, which the
surrounding `try` turns into an error result. -/
def updateFrequencies : StatusMap → Except String StatusMap
  | [] => Except.ok []
  | (k, st) :: rest =>
    if st.consumption = 0 then Except.error "float division by zero"
    else
      let initial_freq := st.frequency
      let balance_change := st.balance - st.balance
      let freq_change := balance_change / st.consumption * (1/10)
      match updateFrequencies rest with
      | Except.error e => Except.error e
      | Except.ok rest2 =>
        Except.ok ((k, { st with
          frequency := min (251/5) (max (249/5) (initial_freq + freq_change)) }) :: rest2)

/-- `simulate_load_balancing` over an explicit regional snapshot (the
source reads it from its data-source collaborator and optionally filters
by a region list; the claims all quantify over the resulting snapshot).
Any exception inside the `try` yields the error payload, rendered as
`Except.error`. -/
def simulate_load_balancing (scen : String)
    (regional_data : List (String × RegionInput)) (rand : ScenarioRand) :
    Except String BalancingResult :=
  match applyScenario scen rand (buildInitialStatus regional_data) with
  | Except.error e => Except.error e
  | Except.ok st1 =>
    let total_imbalance := sumBalance st1
    let gr := greedyRebalance st1
    match updateFrequencies gr.1 with
    | Except.error e => Except.error e
    | Except.ok st3 =>
      let remaining_imbalance := sumBalance st3
      let improvement_percentage :=
        if total_imbalance ≠ 0 then
          (|total_imbalance| - |remaining_imbalance|) / |total_imbalance| * 100
        else 0
      Except.ok
        { scen := scen
          initial_status := st3
          balanced_status := st3
          balancing_actions := gr.2
          metrics :=
            { initial_imbalance := round2 total_imbalance
              remaining_imbalance := round2 remaining_imbalance
              improvement_percentage := round2 improvement_percentage
              transfers_count := gr.2.length
              total_power_transferred := round2 ((gr.2.map BalancingAction.amount).sum) } }

/-- Invariant of every intermediate status map: each region's `balance`
field equals its `generation` minus its `consumption`. -/
def balanceFieldInv (m : StatusMap) : Prop :=
  ∀ e ∈ m, e.2.balance = e.2.generation - e.2.consumption

/-! ## Concrete inputs

`exampleRegions` is the two-region snapshot of the specification's
end-to-end test: region A generates 100 and consumes 80, region B
generates 50 and consumes 90, both at nominal 50 Hz.  `rand0` fixes all
random draws at zero (they are unused under the `normal` scenario).
-/

def getCons (m : StatusMap) (k : String) : ℚ :=
  ((lookupStatus k m).map RegionStatus.consumption).getD 0

def rand0 : ScenarioRand :=
  { peakU1 := fun _ => 0, peakU2 := fun _ => 0, surplusChoice := [],
    surpU1 := fun _ => 0, surpU2 := fun _ => 0, outageChoice := "", outU1 := 0, outU2 := 0 }

def exampleRegions : List (String × RegionInput) :=
  [("A", { generation := 100, consumption := 80, frequency := 50 }),
   ("B", { generation := 50, consumption := 90, frequency := 50 })]

/-- The status map right before rebalancing: balances 20 and -40. -/
def exampleStatusPre : StatusMap :=
  [("A", { generation := 100, consumption := 80, balance := 20, frequency := 50 }),
   ("B", { generation := 50, consumption := 90, balance := -40, frequency := 50 })]

/-- The status map after rebalancing and frequency update: balances 0 and
-20, frequencies unchanged. -/
def exampleStatusFinal : StatusMap :=
  [("A", { generation := 100, consumption := 80, balance := 0, frequency := 50 }),
   ("B", { generation := 50, consumption := 90, balance := -20, frequency := 50 })]

def exampleAction : BalancingAction := { source := "A", target := "B", amount := 20 }

/-- The full result of `simulate_load_balancing('normal')` on
`exampleRegions`. -/
def exampleRes : BalancingResult :=
  { scen := "normal"
    initial_status := exampleStatusFinal
    balanced_status := exampleStatusFinal
    balancing_actions := [exampleAction]
    metrics := { initial_imbalance := -20, remaining_imbalance := -20,
                 improvement_percentage := 0, transfers_count := 1,
                 total_power_transferred := 20 } }

/-- A trivial fit pipeline that always succeeds. -/
def fit0 : List FeatureRow → Except String Unit := fun _ => Except.ok ()

/-- A constant model predicting 100. -/
def pred100 : FeatureVec → Except String ℚ := fun _ => Except.ok 100

/-- An 8-point history (dates 0..7, constant demand 100): the smallest
history for which one feature row survives. -/
def history8 : List HistPoint :=
  (List.range 8).map (fun i => { date := (i : ℤ), average_demand := 100 })

theorem floor_le_roundHalfEven (q : ℚ) : ⌊q⌋ ≤ roundHalfEven q := by
  unfold roundHalfEven
  split_ifs <;> omega

theorem roundHalfEven_le_floor_add_one (q : ℚ) : roundHalfEven q ≤ ⌊q⌋ + 1 := by
  unfold roundHalfEven
  split_ifs <;> omega

theorem roundHalfEven_mono {x y : ℚ} (h : x ≤ y) : roundHalfEven x ≤ roundHalfEven y := by
  rcases lt_or_eq_of_le (Int.floor_mono h) with hf | hf
  · calc roundHalfEven x ≤ ⌊x⌋ + 1 := roundHalfEven_le_floor_add_one x
      _ ≤ ⌊y⌋ := by omega
      _ ≤ roundHalfEven y := floor_le_roundHalfEven y
  · have hfr : Int.fract x ≤ Int.fract y := by
      unfold Int.fract
      rw [hf]
      linarith
    unfold roundHalfEven
    rw [hf]
    split_ifs <;> first | omega | linarith

theorem round2_mono {x y : ℚ} (h : x ≤ y) : round2 x ≤ round2 y := by
  unfold round2
  have h100 : x * 100 ≤ y * 100 := by linarith
  have := roundHalfEven_mono h100
  have hc : ((roundHalfEven (x * 100) : ℤ) : ℚ) ≤ ((roundHalfEven (y * 100) : ℤ) : ℚ) := by
    exact_mod_cast this
  linarith

theorem round2_zero : round2 0 = 0 := by
  unfold round2 roundHalfEven
  norm_num

/-! ## Forecaster lemmas -/

theorem fallbackFrom_length (now : ℤ) : ∀ (n i : ℕ), (fallbackFrom now i n).length = n := by
  intro n
  induction n with
  | zero => intro i; rfl
  | succ n ih => intro i; simp [fallbackFrom, ih]

theorem get_fallback_forecast_length (now : ℤ) (forecast_days : ℕ) :
    (get_fallback_forecast now forecast_days).length = forecast_days :=
  fallbackFrom_length now forecast_days 1

theorem forecastStep_ok (predict : FeatureVec → Except String ℚ) (last_date : ℤ)
    (r : FeatureRow) (prev : Option ℚ) (i : ℕ) (pr : ForecastPoint × FeatureRow)
    (h : forecastStep predict last_date r prev i = Except.ok pr) :
    ∃ p, predict (featureVecOf (last_date + (i : ℤ)) r) = Except.ok p ∧
      pr.1 = { date := last_date + (i : ℤ)
               predicted_demand := round2 p
               lower_bound := round2 (p * (95 / 100))
               upper_bound := round2 (p * (105 / 100)) } := by
  unfold forecastStep at h
  dsimp only at h
  cases hp : predict (featureVecOf (last_date + (i : ℤ)) r) with
  | error e => rw [hp] at h; cases h
  | ok p =>
    rw [hp] at h
    dsimp only at h
    cases h
    exact ⟨p, rfl, rfl⟩

theorem forecastLoop_spec (predict : FeatureVec → Except String ℚ) (last_date : ℤ) :
    ∀ (n : ℕ) (r : FeatureRow) (prev : Option ℚ) (i : ℕ) (pts : List ForecastPoint),
    forecastLoop predict last_date r prev i n = Except.ok pts →
    pts.length = n ∧
    (∀ (j : ℕ) (hj : j < pts.length), (pts.get ⟨j, hj⟩).date = last_date + (i : ℤ) + (j : ℤ)) ∧
    (∀ pt ∈ pts, ∃ x p, predict x = Except.ok p ∧
      pt.predicted_demand = round2 p ∧
      pt.lower_bound = round2 (p * (95 / 100)) ∧
      pt.upper_bound = round2 (p * (105 / 100))) := by
  intro n
  induction n with
  | zero =>
    intro r prev i pts hok
    simp only [forecastLoop] at hok
    cases hok
    refine ⟨rfl, ?_, ?_⟩
    · intro j hj; simp at hj
    · intro pt hpt; simp at hpt
  | succ n ih =>
    intro r prev i pts hok
    simp only [forecastLoop] at hok
    cases hs : forecastStep predict last_date r prev i with
    | error e => rw [hs] at hok; cases hok
    | ok pr =>
      rw [hs] at hok
      dsimp only at hok
      cases hrec : forecastLoop predict last_date pr.2 (some pr.1.predicted_demand) (i + 1) n with
      | error e => rw [hrec] at hok; cases hok
      | ok rest =>
        rw [hrec] at hok
        dsimp only at hok
        cases hok
        obtain ⟨p, hp, hpt1⟩ := forecastStep_ok predict last_date r prev i pr hs
        obtain ⟨hlen, hdates, hshape⟩ := ih _ _ _ _ hrec
        refine ⟨by simp [hlen], ?_, ?_⟩
        · intro j hj
          cases j with
          | zero => simp [hpt1]
          | succ j =>
            have hj2 : j < rest.length := by
              simpa using Nat.lt_of_succ_lt_succ hj
            have := hdates j hj2
            simp only [List.get] at this ⊢
            rw [this]
            push_cast
            ring
        · intro pt hpt
          rcases List.mem_cons.mp hpt with hhd | htl
          · subst hhd
            exact ⟨_, p, hp, by rw [hpt1], by rw [hpt1], by rw [hpt1]⟩
          · exact hshape pt htl

/-- For a nonnegative prediction, the rounded 5 percent bounds bracket the
rounded prediction. -/
theorem round2_bounds_of_nonneg {p : ℚ} (hp : 0 ≤ p) :
    round2 (p * (95 / 100)) ≤ round2 p ∧ round2 p ≤ round2 (p * (105 / 100)) := by
  constructor
  · apply round2_mono; nlinarith
  · apply round2_mono; nlinarith

/-! ## Load balancer lemmas: lookup, adjust, sums -/

theorem lookupStatus_eq_none_iff (k : String) :
    ∀ m : StatusMap, lookupStatus k m = none ↔ k ∉ regionKeys m := by
  intro m
  induction m with
  | nil => simp [lookupStatus, regionKeys]
  | cons e rest ih =>
    obtain ⟨k2, st⟩ := e
    by_cases hk : k2 = k
    · subst hk
      simp [lookupStatus, regionKeys]
    · simp [lookupStatus, regionKeys, hk, ih]
      intro h
      exact fun habs => hk habs.symm

theorem getBal_eq_zero_of_not_mem {k : String} {m : StatusMap}
    (h : k ∉ regionKeys m) : getBal m k = 0 := by
  unfold getBal
  rw [(lookupStatus_eq_none_iff k m).mpr h]
  rfl

theorem mem_regionKeys_of_getBal_ne_zero {k : String} {m : StatusMap}
    (h : getBal m k ≠ 0) : k ∈ regionKeys m := by
  by_contra habs
  exact h (getBal_eq_zero_of_not_mem habs)

theorem regionKeys_adjustRegion (k : String) (f : RegionStatus → RegionStatus) :
    ∀ m : StatusMap, regionKeys (adjustRegion k f m) = regionKeys m := by
  intro m
  induction m with
  | nil => rfl
  | cons e rest ih =>
    obtain ⟨k2, st⟩ := e
    by_cases hk : k2 = k
    · simp [adjustRegion, hk, regionKeys]
    · simp only [adjustRegion, if_neg hk]
      simp [regionKeys] at ih ⊢
      exact ih

theorem lookupStatus_adjustRegion_ne (k k2 : String) (f : RegionStatus → RegionStatus)
    (hne : k2 ≠ k) :
    ∀ m : StatusMap, lookupStatus k2 (adjustRegion k f m) = lookupStatus k2 m := by
  intro m
  induction m with
  | nil => rfl
  | cons e rest ih =>
    obtain ⟨k3, st⟩ := e
    by_cases hk : k3 = k
    · subst hk
      have : ¬ k3 = k2 := fun h => hne (h ▸ rfl)
      simp [adjustRegion, lookupStatus, this]
    · by_cases hk2 : k3 = k2
      · subst hk2
        simp [adjustRegion, lookupStatus, hk]
      · simp [adjustRegion, lookupStatus, hk, hk2, ih]

theorem getBal_adjustBal_ne (k k2 : String) (d : ℚ) (m : StatusMap) (hne : k2 ≠ k) :
    getBal (adjustBal k d m) k2 = getBal m k2 := by
  unfold getBal adjustBal
  rw [lookupStatus_adjustRegion_ne k k2 _ hne]

theorem getBal_adjustBal_self (k : String) (d : ℚ) :
    ∀ m : StatusMap, k ∈ regionKeys m →
    getBal (adjustBal k d m) k = getBal m k + d := by
  intro m
  induction m with
  | nil => intro h; simp [regionKeys] at h
  | cons e rest ih =>
    obtain ⟨k2, st⟩ := e
    intro hmem
    by_cases hk : k2 = k
    · subst hk
      simp [adjustBal, adjustRegion, getBal, lookupStatus]
    · have hmem2 : k ∈ regionKeys rest := by
        simp [regionKeys] at hmem ⊢
        rcases hmem with h | h
        · exact absurd h.symm hk
        · exact h
      simp only [adjustBal, adjustRegion, if_neg hk]
      simp only [getBal, lookupStatus, if_neg hk]
      exact ih hmem2

theorem sumBalance_cons (k : String) (st : RegionStatus) (rest : StatusMap) :
    sumBalance ((k, st) :: rest) = st.balance + sumBalance rest := by
  simp [sumBalance]

theorem sumBalance_adjustBal (k : String) (d : ℚ) :
    ∀ m : StatusMap, k ∈ regionKeys m →
    sumBalance (adjustBal k d m) = sumBalance m + d := by
  intro m
  induction m with
  | nil => intro h; simp [regionKeys] at h
  | cons e rest ih =>
    obtain ⟨k2, st⟩ := e
    intro hmem
    by_cases hk : k2 = k
    · subst hk
      simp [adjustBal, adjustRegion, sumBalance]
      ring
    · have hmem2 : k ∈ regionKeys rest := by
        simp [regionKeys] at hmem ⊢
        rcases hmem with h | h
        · exact absurd h.symm hk
        · exact h
      simp only [adjustBal, adjustRegion, if_neg hk]
      rw [sumBalance_cons, sumBalance_cons]
      have := ih hmem2
      unfold adjustBal at this
      rw [this]
      ring

/-! ## Load balancer lemmas: the inner transfer loop -/

theorem regionKeys_adjustBal (k : String) (d : ℚ) (m : StatusMap) :
    regionKeys (adjustBal k d m) = regionKeys m := by
  unfold adjustBal
  exact regionKeys_adjustRegion k _ m

theorem regionKeys_transferFrom (src : String) :
    ∀ (defs : List String) (avail : ℚ) (m : StatusMap) (acts : List BalancingAction),
    regionKeys (transferFrom src defs avail m acts).1 = regionKeys m := by
  intro defs
  induction defs with
  | nil => intro avail m acts; rfl
  | cons d rest ih =>
    intro avail m acts
    simp only [transferFrom]
    split_ifs with h1 h2 h3
    · exact ih avail m acts
    · exact ih avail m acts
    · dsimp only
      rw [regionKeys_adjustBal, regionKeys_adjustBal]
    · rw [ih]
      rw [regionKeys_adjustBal, regionKeys_adjustBal]

theorem sumBalance_transferFrom (src : String) :
    ∀ (defs : List String) (avail : ℚ) (m : StatusMap) (acts : List BalancingAction),
    src ∉ defs → getBal m src = avail → 0 < avail →
    sumBalance (transferFrom src defs avail m acts).1 = sumBalance m := by
  intro defs
  induction defs with
  | nil => intro avail m acts _ _ _; rfl
  | cons d rest ih =>
    intro avail m acts hnotin hsync hpos
    have hsd : src ≠ d := fun h => hnotin (h ▸ List.mem_cons_self d rest)
    have hnotin2 : src ∉ rest := fun h => hnotin (List.mem_cons_of_mem d h)
    have hsrc_mem : src ∈ regionKeys m :=
      mem_regionKeys_of_getBal_ne_zero (by rw [hsync]; exact ne_of_gt hpos)
    simp only [transferFrom]
    split_ifs with h1 h2 h3
    · exact ih avail m acts hnotin2 hsync hpos
    · exact ih avail m acts hnotin2 hsync hpos
    · have hd_mem : d ∈ regionKeys m := by
        apply mem_regionKeys_of_getBal_ne_zero
        intro h0
        exact h1 (by rw [h0]; norm_num)
      have hd_mem2 : d ∈ regionKeys (adjustBal src (-(min avail |getBal m d|)) m) := by
        rw [regionKeys_adjustBal]; exact hd_mem
      dsimp only
      rw [sumBalance_adjustBal d _ _ hd_mem2, sumBalance_adjustBal src _ _ hsrc_mem]
      ring
    · have hd_mem : d ∈ regionKeys m := by
        apply mem_regionKeys_of_getBal_ne_zero
        intro h0
        exact h1 (by rw [h0]; norm_num)
      have hd_mem2 : d ∈ regionKeys (adjustBal src (-(min avail |getBal m d|)) m) := by
        rw [regionKeys_adjustBal]; exact hd_mem
      have hsync2 : getBal (adjustBal d (min avail |getBal m d|)
          (adjustBal src (-(min avail |getBal m d|)) m)) src
          = avail - min avail |getBal m d| := by
        rw [getBal_adjustBal_ne d src _ _ hsd,
          getBal_adjustBal_self src _ _ hsrc_mem, hsync]
        ring
      have hpos2 : 0 < avail - min avail |getBal m d| := lt_of_not_le h3
      rw [ih _ _ _ hnotin2 hsync2 hpos2]
      rw [sumBalance_adjustBal d _ _ hd_mem2, sumBalance_adjustBal src _ _ hsrc_mem]
      ring

theorem transferFrom_spec (src : String) :
    ∀ (defs : List String) (avail : ℚ) (m : StatusMap) (acts : List BalancingAction),
    src ∉ defs → getBal m src = avail → 0 < avail →
    (∀ d ∈ defs, getBal m d ≤ 0) →
    0 ≤ getBal (transferFrom src defs avail m acts).1 src ∧
    (∀ d ∈ defs, getBal (transferFrom src defs avail m acts).1 d ≤ 0) ∧
    (∀ k, k ≠ src → k ∉ defs → getBal (transferFrom src defs avail m acts).1 k = getBal m k) := by
  intro defs
  induction defs with
  | nil =>
    intro avail m acts _ hsync hpos _
    refine ⟨?_, ?_, ?_⟩
    · simp only [transferFrom]
      rw [hsync]
      exact le_of_lt hpos
    · intro d hd
      simp at hd
    · intro k _ _
      simp only [transferFrom]
  | cons d rest ih =>
    intro avail m acts hnotin hsync hpos hdefs
    have hsd : src ≠ d := fun h => hnotin (h ▸ List.mem_cons_self d rest)
    have hnotin2 : src ∉ rest := fun h => hnotin (List.mem_cons_of_mem d h)
    have hsrc_mem : src ∈ regionKeys m :=
      mem_regionKeys_of_getBal_ne_zero (by rw [hsync]; exact ne_of_gt hpos)
    have hdefs2 : ∀ x ∈ rest, getBal m x ≤ 0 :=
      fun x hx => hdefs x (List.mem_cons_of_mem d hx)
    simp only [transferFrom]
    split_ifs with h1 h2 h3
    · obtain ⟨ha, hb, hc⟩ := ih avail m acts hnotin2 hsync hpos hdefs2
      refine ⟨ha, ?_, ?_⟩
      · intro d2 hd2
        rcases List.mem_cons.mp hd2 with hd2 | hd2
        · subst hd2
          by_cases hdr : d2 ∈ rest
          · exact hb d2 hdr
          · rw [hc d2 (fun h => hsd h.symm) hdr]
            exact hdefs d2 (List.mem_cons_self d2 rest)
        · exact hb d2 hd2
      · intro k hk hknotin
        exact hc k hk (fun h => hknotin (List.mem_cons_of_mem d h))
    · obtain ⟨ha, hb, hc⟩ := ih avail m acts hnotin2 hsync hpos hdefs2
      refine ⟨ha, ?_, ?_⟩
      · intro d2 hd2
        rcases List.mem_cons.mp hd2 with hd2 | hd2
        · subst hd2
          by_cases hdr : d2 ∈ rest
          · exact hb d2 hdr
          · rw [hc d2 (fun h => hsd h.symm) hdr]
            exact hdefs d2 (List.mem_cons_self d2 rest)
        · exact hb d2 hd2
      · intro k hk hknotin
        exact hc k hk (fun h => hknotin (List.mem_cons_of_mem d h))
    · -- break: the surplus is exhausted after this transfer
      have hd_mem : d ∈ regionKeys m := by
        apply mem_regionKeys_of_getBal_ne_zero
        intro h0
        exact h1 (by rw [h0]; norm_num)
      have hd_mem2 : d ∈ regionKeys (adjustBal src (-(min avail |getBal m d|)) m) := by
        rw [regionKeys_adjustBal]; exact hd_mem
      have hdneg : getBal m d < 0 := by
        have habs : 0 < |getBal m d| := lt_of_not_le h1
        rcases lt_trichotomy (getBal m d) 0 with h | h | h
        · exact h
        · rw [h] at habs; simp at habs
        · exact absurd h (not_lt.mpr (hdefs d (List.mem_cons_self d rest)))
      have htle : min avail |getBal m d| ≤ |getBal m d| := min_le_right avail _
      dsimp only
      refine ⟨?_, ?_, ?_⟩
      · rw [getBal_adjustBal_ne d src _ _ hsd,
          getBal_adjustBal_self src _ _ hsrc_mem, hsync]
        have hmin : min avail |getBal m d| ≤ avail := min_le_left _ _
        linarith
      · intro d2 hd2
        by_cases hdd : d2 = d
        · subst hdd
          rw [getBal_adjustBal_self d2 _ _ hd_mem2,
            getBal_adjustBal_ne src d2 _ _ (fun h => hsd h.symm)]
          have ht2 : min avail |getBal m d2| ≤ -getBal m d2 := by
            rw [← abs_of_neg hdneg]
            exact min_le_right _ _
          linarith
        · have hd2r : d2 ∈ rest := by
            rcases List.mem_cons.mp hd2 with h | h
            · exact absurd h hdd
            · exact h
          have hd2s : d2 ≠ src := fun h => hnotin2 (h ▸ hd2r)
          rw [getBal_adjustBal_ne d d2 _ _ hdd,
            getBal_adjustBal_ne src d2 _ _ hd2s]
          exact hdefs2 d2 hd2r
      · intro k hk hknotin
        have hkd : k ≠ d := fun h => hknotin (h ▸ List.mem_cons_self d rest)
        rw [getBal_adjustBal_ne d k _ _ hkd, getBal_adjustBal_ne src k _ _ hk]
    · -- continue with the reduced surplus
      have hd_mem : d ∈ regionKeys m := by
        apply mem_regionKeys_of_getBal_ne_zero
        intro h0
        exact h1 (by rw [h0]; norm_num)
      have hd_mem2 : d ∈ regionKeys (adjustBal src (-(min avail |getBal m d|)) m) := by
        rw [regionKeys_adjustBal]; exact hd_mem
      have hdneg : getBal m d < 0 := by
        have habs : 0 < |getBal m d| := lt_of_not_le h1
        rcases lt_trichotomy (getBal m d) 0 with h | h | h
        · exact h
        · rw [h] at habs; simp at habs
        · exact absurd h (not_lt.mpr (hdefs d (List.mem_cons_self d rest)))
      have htle : min avail |getBal m d| ≤ |getBal m d| := min_le_right avail _
      have hsync2 : getBal (adjustBal d (min avail |getBal m d|)
          (adjustBal src (-(min avail |getBal m d|)) m)) src
          = avail - min avail |getBal m d| := by
        rw [getBal_adjustBal_ne d src _ _ hsd,
          getBal_adjustBal_self src _ _ hsrc_mem, hsync]
        ring
      have hpos2 : 0 < avail - min avail |getBal m d| := lt_of_not_le h3
      have hdefs3 : ∀ x ∈ rest, getBal (adjustBal d (min avail |getBal m d|)
          (adjustBal src (-(min avail |getBal m d|)) m)) x ≤ 0 := by
        intro x hx
        by_cases hxd : x = d
        · subst hxd
          rw [getBal_adjustBal_self x _ _ hd_mem2,
            getBal_adjustBal_ne src x _ _ (fun h => hsd h.symm)]
          have ht2 : min avail |getBal m x| ≤ -getBal m x := by
            rw [← abs_of_neg hdneg]
            exact min_le_right _ _
          linarith
        · have hxs : x ≠ src := fun h => hnotin2 (h ▸ hx)
          rw [getBal_adjustBal_ne d x _ _ hxd, getBal_adjustBal_ne src x _ _ hxs]
          exact hdefs2 x hx
      obtain ⟨ha, hb, hc⟩ := ih _ _ _ hnotin2 hsync2 hpos2 hdefs3
      refine ⟨ha, ?_, ?_⟩
      · intro d2 hd2
        rcases List.mem_cons.mp hd2 with hd2 | hd2
        · subst hd2
          by_cases hdr : d2 ∈ rest
          · exact hb d2 hdr
          · rw [hc d2 (fun h => hsd h.symm) hdr]
            rw [getBal_adjustBal_self d2 _ _ hd_mem2,
              getBal_adjustBal_ne src d2 _ _ (fun h => hsd h.symm)]
            have ht2 : min avail |getBal m d2| ≤ -getBal m d2 := by
              rw [← abs_of_neg hdneg]
              exact min_le_right _ _
            linarith
        · exact hb d2 hd2
      · intro k hk hknotin
        have hkd : k ≠ d := fun h => hknotin (h ▸ List.mem_cons_self d rest)
        have hkr : k ∉ rest := fun h => hknotin (List.mem_cons_of_mem d h)
        rw [hc k hk hkr]
        rw [getBal_adjustBal_ne d k _ _ hkd, getBal_adjustBal_ne src k _ _ hk]

/-! ## Load balancer lemmas: the outer transfer loop -/

theorem sumBalance_runTransfers (defs : List String) :
    ∀ (surps : List String) (m : StatusMap) (acts : List BalancingAction),
    (∀ s ∈ surps, s ∉ defs) →
    sumBalance (runTransfers defs surps m acts).1 = sumBalance m := by
  intro surps
  induction surps with
  | nil => intro m acts _; rfl
  | cons s rest ih =>
    intro m acts hdisj
    have hdisj2 : ∀ x ∈ rest, x ∉ defs := fun x hx => hdisj x (List.mem_cons_of_mem s hx)
    simp only [runTransfers]
    split_ifs with h1
    · exact ih m acts hdisj2
    · rw [ih _ _ hdisj2]
      exact sumBalance_transferFrom s defs _ m acts (hdisj s (List.mem_cons_self s rest))
        rfl (lt_of_not_le h1)

theorem regionKeys_runTransfers (defs : List String) :
    ∀ (surps : List String) (m : StatusMap) (acts : List BalancingAction),
    regionKeys (runTransfers defs surps m acts).1 = regionKeys m := by
  intro surps
  induction surps with
  | nil => intro m acts; rfl
  | cons s rest ih =>
    intro m acts
    simp only [runTransfers]
    split_ifs with h1
    · exact ih m acts
    · rw [ih, regionKeys_transferFrom]

theorem runTransfers_spec (defs : List String) :
    ∀ (surps : List String) (m : StatusMap) (acts : List BalancingAction),
    surps.Nodup →
    (∀ s ∈ surps, s ∉ defs) →
    (∀ d ∈ defs, getBal m d ≤ 0) →
    (∀ s ∈ surps, 0 < getBal m s → 0 ≤ getBal (runTransfers defs surps m acts).1 s) ∧
    (∀ d ∈ defs, getBal (runTransfers defs surps m acts).1 d ≤ 0) ∧
    (∀ k, k ∉ surps → k ∉ defs → getBal (runTransfers defs surps m acts).1 k = getBal m k) := by
  intro surps
  induction surps with
  | nil =>
    intro m acts _ _ hdefs
    exact ⟨fun s hs => absurd hs (List.not_mem_nil s), fun d hd => hdefs d hd, fun k _ _ => rfl⟩
  | cons s rest ih =>
    intro m acts hnodup hdisj hdefs
    have hsnotin : s ∉ defs := hdisj s (List.mem_cons_self s rest)
    have hsrest : s ∉ rest := (List.nodup_cons.mp hnodup).1
    have hnodup2 : rest.Nodup := (List.nodup_cons.mp hnodup).2
    have hdisj2 : ∀ x ∈ rest, x ∉ defs := fun x hx => hdisj x (List.mem_cons_of_mem s hx)
    simp only [runTransfers]
    split_ifs with h1
    · obtain ⟨ha, hb, hc⟩ := ih m acts hnodup2 hdisj2 hdefs
      refine ⟨?_, hb, ?_⟩
      · intro s2 hs2 hpos
        rcases List.mem_cons.mp hs2 with hs2 | hs2
        · subst hs2
          exact absurd hpos (not_lt.mpr h1)
        · exact ha s2 hs2 hpos
      · intro k hk hknotin
        exact hc k (fun h => hk (List.mem_cons_of_mem s h)) hknotin
    · have hpos : 0 < getBal m s := lt_of_not_le h1
      obtain ⟨ta, tb, tc⟩ :=
        transferFrom_spec s defs (getBal m s) m acts hsnotin rfl hpos hdefs
      obtain ⟨ha, hb, hc⟩ :=
        ih (transferFrom s defs (getBal m s) m acts).1
          (transferFrom s defs (getBal m s) m acts).2 hnodup2 hdisj2 tb
      refine ⟨?_, hb, ?_⟩
      · intro s2 hs2 hpos2
        rcases List.mem_cons.mp hs2 with hs2 | hs2
        · subst hs2
          rw [hc s2 hsrest hsnotin]
          exact ta
        · have hs2ne : s2 ≠ s := fun h => hsrest (h ▸ hs2)
          have hs2notin : s2 ∉ defs := hdisj2 s2 hs2
          apply ha s2 hs2
          rw [tc s2 hs2ne hs2notin]
          exact hpos2
      · intro k hk hknotin
        have hkne : k ≠ s := fun h => hk (h ▸ List.mem_cons_self s rest)
        have hkrest : k ∉ rest := fun h => hk (List.mem_cons_of_mem s h)
        rw [hc k hkrest hknotin]
        exact tc k hkne hknotin

/-! ## Load balancer lemmas: sorting, scenarios, frequency update -/

theorem insertByBalDesc_perm (m : StatusMap) (r : String) :
    ∀ l : List String, List.Perm (insertByBalDesc m r l) (r :: l) := by
  intro l
  induction l with
  | nil => exact List.Perm.refl _
  | cons x xs ih =>
    simp only [insertByBalDesc]
    split_ifs with h
    · exact List.Perm.refl _
    · exact (List.Perm.cons x ih).trans (List.Perm.swap r x xs)

theorem sortKeysByBalDesc_perm (m : StatusMap) :
    List.Perm (sortKeysByBalDesc m) (regionKeys m) := by
  unfold sortKeysByBalDesc
  generalize regionKeys m = l
  induction l with
  | nil => exact List.Perm.refl _
  | cons x xs ih =>
    exact (insertByBalDesc_perm m x _).trans (List.Perm.cons x ih)

theorem regionKeys_foldl (F : StatusMap → String → StatusMap)
    (hF : ∀ acc r, regionKeys (F acc r) = regionKeys acc) :
    ∀ (choice : List String) (acc : StatusMap),
    regionKeys (choice.foldl F acc) = regionKeys acc := by
  intro choice
  induction choice with
  | nil => intro acc; rfl
  | cons c cs ih =>
    intro acc
    simp only [List.foldl]
    rw [ih, hF]

theorem regionKeys_buildInitialStatus (rd : List (String × RegionInput)) :
    regionKeys (buildInitialStatus rd) = rd.map Prod.fst := by
  simp [regionKeys, buildInitialStatus]

theorem regionKeys_applyScenario (scen : String) (rand : ScenarioRand) (m m2 : StatusMap)
    (h : applyScenario scen rand m = Except.ok m2) : regionKeys m2 = regionKeys m := by
  unfold applyScenario at h
  by_cases h1 : scen = "peak"
  · rw [if_pos h1] at h
    cases h
    simp [regionKeys]
  · rw [if_neg h1] at h
    by_cases h2 : scen = "renewable_surplus"
    · rw [if_pos h2] at h
      by_cases h3 : m.length < 2
      · rw [if_pos h3] at h
        cases h
      · rw [if_neg h3] at h
        cases h
        refine regionKeys_foldl _ ?_ rand.surplusChoice m
        intro acc r
        exact regionKeys_adjustRegion r _ acc
    · rw [if_neg h2] at h
      by_cases h4 : scen = "outage"
      · rw [if_pos h4] at h
        by_cases h5 : m.length = 0
        · rw [if_pos h5] at h
          cases h
        · rw [if_neg h5] at h
          cases h
          exact regionKeys_adjustRegion _ _ m
      · rw [if_neg h4] at h
        cases h
        rfl

theorem balanceFieldInv_buildInitialStatus (rd : List (String × RegionInput)) :
    balanceFieldInv (buildInitialStatus rd) := by
  intro e he
  unfold buildInitialStatus at he
  obtain ⟨p, _, hp⟩ := List.mem_map.mp he
  rw [← hp]

theorem balanceFieldInv_adjustRegion {k : String} {f : RegionStatus → RegionStatus}
    (hf : ∀ st, (f st).balance = (f st).generation - (f st).consumption) :
    ∀ m : StatusMap, balanceFieldInv m → balanceFieldInv (adjustRegion k f m) := by
  intro m
  induction m with
  | nil => intro _ e he; cases he
  | cons e0 rest ih =>
    obtain ⟨k2, st⟩ := e0
    intro hinv e he
    have hinv2 : balanceFieldInv rest := fun x hx => hinv x (List.mem_cons_of_mem _ hx)
    by_cases hk : k2 = k
    · simp only [adjustRegion, if_pos hk] at he
      rcases List.mem_cons.mp he with he | he
      · subst he; exact hf st
      · exact hinv2 e he
    · simp only [adjustRegion, if_neg hk] at he
      rcases List.mem_cons.mp he with he | he
      · subst he; exact hinv (k2, st) (List.mem_cons_self _ _)
      · exact ih hinv2 e he

theorem balanceFieldInv_foldl (F : StatusMap → String → StatusMap)
    (hF : ∀ acc r, balanceFieldInv acc → balanceFieldInv (F acc r)) :
    ∀ (choice : List String) (acc : StatusMap),
    balanceFieldInv acc → balanceFieldInv (choice.foldl F acc) := by
  intro choice
  induction choice with
  | nil => intro acc hacc; exact hacc
  | cons c cs ih =>
    intro acc hacc
    simp only [List.foldl]
    exact ih _ (hF acc c hacc)

theorem balanceFieldInv_applyScenario (scen : String) (rand : ScenarioRand)
    (m m2 : StatusMap) (h : applyScenario scen rand m = Except.ok m2)
    (hinv : balanceFieldInv m) : balanceFieldInv m2 := by
  unfold applyScenario at h
  by_cases h1 : scen = "peak"
  · rw [if_pos h1] at h
    cases h
    intro e he
    obtain ⟨p, _, hp⟩ := List.mem_map.mp he
    rw [← hp]
  · rw [if_neg h1] at h
    by_cases h2 : scen = "renewable_surplus"
    · rw [if_pos h2] at h
      by_cases h3 : m.length < 2
      · rw [if_pos h3] at h
        cases h
      · rw [if_neg h3] at h
        cases h
        refine balanceFieldInv_foldl _ ?_ rand.surplusChoice m hinv
        intro acc r hacc
        exact balanceFieldInv_adjustRegion (fun st => rfl) acc hacc
    · rw [if_neg h2] at h
      by_cases h4 : scen = "outage"
      · rw [if_pos h4] at h
        by_cases h5 : m.length = 0
        · rw [if_pos h5] at h
          cases h
        · rw [if_neg h5] at h
          cases h
          exact balanceFieldInv_adjustRegion (fun st => rfl) m hinv
      · rw [if_neg h4] at h
        cases h
        exact hinv

theorem sumBalance_eq_sumGenConsDiff :
    ∀ m : StatusMap, balanceFieldInv m → sumBalance m = sumGenConsDiff m := by
  intro m
  induction m with
  | nil => intro _; rfl
  | cons e rest ih =>
    intro hinv
    have h0 := hinv e (List.mem_cons_self _ _)
    have h2 : balanceFieldInv rest := fun x hx => hinv x (List.mem_cons_of_mem _ hx)
    simp only [sumBalance, sumGenConsDiff, List.map_cons, List.sum_cons] at ih ⊢
    rw [h0, ih h2]

theorem sumBalance_updateFrequencies :
    ∀ (m m2 : StatusMap), updateFrequencies m = Except.ok m2 → sumBalance m2 = sumBalance m := by
  intro m
  induction m with
  | nil =>
    intro m2 h
    simp only [updateFrequencies] at h
    cases h
    rfl
  | cons e rest ih =>
    obtain ⟨k, st⟩ := e
    intro m2 h
    simp only [updateFrequencies] at h
    by_cases hc : st.consumption = 0
    · rw [if_pos hc] at h
      cases h
    · rw [if_neg hc] at h
      cases hrec : updateFrequencies rest with
      | error e2 =>
        rw [hrec] at h
        cases h
      | ok rest2 =>
        rw [hrec] at h
        dsimp only at h
        cases h
        rw [sumBalance_cons, sumBalance_cons, ih rest2 hrec]

theorem sumBalance_greedyRebalance (m : StatusMap) :
    sumBalance (greedyRebalance m).1 = sumBalance m := by
  unfold greedyRebalance
  apply sumBalance_runTransfers
  intro s hs hmem
  have h1 := (List.mem_filter.mp hs).2
  have h2 := (List.mem_filter.mp hmem).2
  simp only [decide_eq_true_eq] at h1 h2
  linarith

theorem greedyRebalance_signs (m : StatusMap) (hnodup : (regionKeys m).Nodup) (k : String) :
    (0 < getBal m k → 0 ≤ getBal (greedyRebalance m).1 k) ∧
    (getBal m k < 0 → getBal (greedyRebalance m).1 k ≤ 0) := by
  unfold greedyRebalance
  have hperm := sortKeysByBalDesc_perm m
  have hsnodup : (sortKeysByBalDesc m).Nodup := hperm.nodup_iff.mpr hnodup
  have hdisj : ∀ s ∈ (sortKeysByBalDesc m).filter (fun r => decide (0 < getBal m r)),
      s ∉ (sortKeysByBalDesc m).filter (fun r => decide (getBal m r < 0)) := by
    intro s hs hmem
    have h1 := (List.mem_filter.mp hs).2
    have h2 := (List.mem_filter.mp hmem).2
    simp only [decide_eq_true_eq] at h1 h2
    linarith
  have hdefs : ∀ d ∈ (sortKeysByBalDesc m).filter (fun r => decide (getBal m r < 0)),
      getBal m d ≤ 0 := by
    intro d hd
    have := (List.mem_filter.mp hd).2
    simp only [decide_eq_true_eq] at this
    linarith
  obtain ⟨ha, hb, _⟩ := runTransfers_spec
    ((sortKeysByBalDesc m).filter (fun r => decide (getBal m r < 0)))
    ((sortKeysByBalDesc m).filter (fun r => decide (0 < getBal m r)))
    m [] (hsnodup.filter _) hdisj hdefs
  constructor
  · intro hk
    have hk_mem : k ∈ regionKeys m := mem_regionKeys_of_getBal_ne_zero (ne_of_gt hk)
    have hk_surp : k ∈ (sortKeysByBalDesc m).filter (fun r => decide (0 < getBal m r)) :=
      List.mem_filter.mpr ⟨hperm.mem_iff.mpr hk_mem, by simp [hk]⟩
    exact ha k hk_surp hk
  · intro hk
    have hk_mem : k ∈ regionKeys m := mem_regionKeys_of_getBal_ne_zero (ne_of_lt hk)
    have hk_def : k ∈ (sortKeysByBalDesc m).filter (fun r => decide (getBal m r < 0)) :=
      List.mem_filter.mpr ⟨hperm.mem_iff.mpr hk_mem, by simp [hk]⟩
    exact hb k hk_def

/-! ## Concrete evaluation lemmas -/

theorem round2_intCast (n : ℤ) : round2 ((n : ℚ)) = (n : ℚ) := by
  unfold round2 roundHalfEven
  have h : ((n : ℚ) * 100) = (((n * 100 : ℤ) : ℤ) : ℚ) := by push_cast; ring
  rw [h, Int.floor_intCast, Int.fract_intCast]
  norm_num

theorem exampleBuild_eq : buildInitialStatus exampleRegions = exampleStatusPre := by
  norm_num [buildInitialStatus, exampleRegions, exampleStatusPre]

theorem exampleApply_eq : applyScenario "normal" rand0 (buildInitialStatus exampleRegions) =
    Except.ok exampleStatusPre := by
  rw [exampleBuild_eq]
  simp [applyScenario]

theorem exampleGreedy_eq :
    greedyRebalance exampleStatusPre = (exampleStatusFinal, [exampleAction]) := by
  have h20 : round2 (20 : ℚ) = 20 := by
    norm_num [round2, roundHalfEven, Int.fract]
  have habs : |(-40 : ℚ)| = 40 := by
    rw [abs_of_neg (by norm_num : (-40 : ℚ) < 0)]
    norm_num
  have hmin : min (20 : ℚ) 40 = 20 := by
    rw [min_def]
    norm_num
  have hsort : sortKeysByBalDesc exampleStatusPre = ["A", "B"] := by
    simp [sortKeysByBalDesc, regionKeys, exampleStatusPre, List.foldr, insertByBalDesc,
      getBal, lookupStatus]
    norm_num
  have hgetB : getBal exampleStatusPre "B" = -40 := by
    simp [getBal, lookupStatus, exampleStatusPre]
  have hgetA : getBal exampleStatusPre "A" = 20 := by
    simp [getBal, lookupStatus, exampleStatusPre]
  have htf : transferFrom "A" ["B"] 20 exampleStatusPre [] =
      (exampleStatusFinal, [exampleAction]) := by
    simp only [transferFrom, hgetB, habs, hmin, h20]
    rw [if_neg (show ¬(40 : ℚ) ≤ 0 by norm_num)]
    rw [if_neg (show ¬(20 : ℚ) ≤ 0 by norm_num)]
    rw [if_pos (show (20 : ℚ) - 20 ≤ 0 by norm_num)]
    norm_num [adjustBal, adjustRegion, exampleStatusPre, exampleStatusFinal, exampleAction]
    all_goals decide
  unfold greedyRebalance
  rw [hsort]
  have hfilters :
      (["A", "B"].filter (fun r => decide (getBal exampleStatusPre r < 0)) = ["B"]) ∧
      (["A", "B"].filter (fun r => decide (0 < getBal exampleStatusPre r)) = ["A"]) := by
    constructor <;>
      · simp [List.filter, hgetA, hgetB]
        norm_num
  rw [hfilters.1, hfilters.2]
  simp only [runTransfers, hgetA]
  rw [if_neg (by norm_num)]
  rw [htf]

theorem exampleUpdate_eq :
    updateFrequencies exampleStatusFinal = Except.ok exampleStatusFinal := by
  norm_num [updateFrequencies, exampleStatusFinal]

theorem exampleRun_eq :
    simulate_load_balancing "normal" exampleRegions rand0 = Except.ok exampleRes := by
  have hneg20 : round2 (-20 : ℚ) = -20 := by
    norm_num [round2, roundHalfEven, Int.fract]
  have h20 : round2 (20 : ℚ) = 20 := by
    norm_num [round2, roundHalfEven, Int.fract]
  have hsum1 : sumBalance exampleStatusPre = -20 := by
    norm_num [sumBalance, exampleStatusPre]
  have hsum3 : sumBalance exampleStatusFinal = -20 := by
    norm_num [sumBalance, exampleStatusFinal]
  unfold simulate_load_balancing
  rw [exampleApply_eq]
  dsimp only
  rw [exampleGreedy_eq]
  dsimp only
  rw [exampleUpdate_eq]
  dsimp only
  rw [hsum1, hsum3]
  norm_num [exampleRes, exampleAction, hneg20, h20, round2_zero]

theorem exampleForecast_eq :
    forecast_demand fit0 pred100 0 history8 2 = ForecastResult.ok
      [{ date := 8, predicted_demand := 100, lower_bound := 95, upper_bound := 105 },
       { date := 9, predicted_demand := 100, lower_bound := 95, upper_bound := 105 }] := by
  have h100 : round2 (100 : ℚ) = 100 := by
    norm_num [round2, roundHalfEven, Int.fract]
  have h95 : round2 ((100 : ℚ) * (95 / 100)) = 95 := by
    norm_num [round2, roundHalfEven, Int.fract]
  have h105 : round2 ((100 : ℚ) * (105 / 100)) = 105 := by
    norm_num [round2, roundHalfEven, Int.fract]
  simp [forecast_demand, train_model, prepare_features, prepareRows, sortByDate,
    insertByDate, rowsFrom, history8, lastHistDate, forecastLoop, forecastStep,
    fit0, pred100, h100, h95, h105, List.foldr, List.range, List.range.loop]

/-! ## Claims -/

/-- C1 (counterexample): on a fresh forecaster instance, the empty history
(indeed any history with fewer than 8 points) makes model training fail,
and `forecast_demand` then returns the bare training-failure payload
`{"success": False, "error": ...}` — with no `forecast` and no
`fallback_forecast` key — so the result carries no usable series of 7
points.  This refutes the claim that the result always contains a usable
forecast series. -/
theorem claim1_counterexample :
    usableSeries (forecast_demand fit0 pred100 0 [] 7) 7 = false ∧
    forecast_demand fit0 pred100 0 [] 7 =
      ForecastResult.trainFail "insufficient data to build features" :=
  ⟨rfl, rfl⟩

/-- C1 (amended): `forecast_demand` never raises past the component
boundary — for every fit pipeline, every model, every history and every
horizon it returns one of its three structured payloads — and whenever the
result is not a training-failure payload it carries a usable series of
exactly `days` points (the model forecast on success, the fallback series
when prediction fails).  When training itself fails, the result is the
error payload with no forecast series. -/
theorem claim1_amended (fit : List FeatureRow → Except String Unit)
    (predict : FeatureVec → Except String ℚ) (now : ℤ)
    (history : List HistPoint) (days : ℕ) :
    (∃ e, forecast_demand fit predict now history days = ForecastResult.trainFail e) ∨
    usableSeries (forecast_demand fit predict now history days) days = true := by
  cases hres : forecast_demand fit predict now history days with
  | trainFail e => exact Or.inl ⟨e, rfl⟩
  | ok pts =>
    right
    unfold forecast_demand at hres
    cases h1 : train_model fit history with
    | error e => rw [h1] at hres; cases hres
    | ok u =>
      rw [h1] at hres
      dsimp only at hres
      cases h2 : prepare_features history with
      | error e =>
        rw [h2] at hres
        dsimp only at hres
        cases hres
      | ok rows =>
        rw [h2] at hres
        dsimp only at hres
        cases h3 : forecastLoop predict (lastHistDate history) (rows.getLastD default)
            none 1 days with
        | error e =>
          rw [h3] at hres
          dsimp only at hres
          cases hres
        | ok pts2 =>
          rw [h3] at hres
          dsimp only at hres
          cases hres
          have hlen := (forecastLoop_spec predict (lastHistDate history) days
            (rows.getLastD default) none 1 _ h3).1
          simp [usableSeries, hlen]
  | predictFail e fb =>
    right
    unfold forecast_demand at hres
    cases h1 : train_model fit history with
    | error e2 => rw [h1] at hres; cases hres
    | ok u =>
      rw [h1] at hres
      dsimp only at hres
      cases h2 : prepare_features history with
      | error e2 =>
        rw [h2] at hres
        dsimp only at hres
        cases hres
        simp [usableSeries, get_fallback_forecast_length]
      | ok rows =>
        rw [h2] at hres
        dsimp only at hres
        cases h3 : forecastLoop predict (lastHistDate history) (rows.getLastD default)
            none 1 days with
        | error e2 =>
          rw [h3] at hres
          dsimp only at hres
          cases hres
          simp [usableSeries, get_fallback_forecast_length]
        | ok pts2 =>
          rw [h3] at hres
          dsimp only at hres
          cases hres

/-- C2 (evaluation at the claimed input): on the snapshot
`{A: gen=100, cons=80}, {B: gen=50, cons=90}` under `normal`, the
simulation does produce exactly one action transferring 20 from A to B and
final balances A = 0, B = -20 — but `metrics.improvement_percentage` is 0,
not the claimed 50: the metric divides the unchanged signed total
imbalance by itself, so it cannot register the transfer. -/
theorem claim2_end_to_end_eval :
    simulate_load_balancing "normal" exampleRegions rand0 = Except.ok exampleRes ∧
    exampleRes.balancing_actions = [{ source := "A", target := "B", amount := 20 }] ∧
    getBal exampleRes.balanced_status "A" = 0 ∧
    getBal exampleRes.balanced_status "B" = -20 ∧
    exampleRes.metrics.improvement_percentage = 0 ∧
    exampleRes.metrics.improvement_percentage ≠ 50 := by
  refine ⟨exampleRun_eq, rfl, ?_, ?_, rfl, ?_⟩
  · simp [getBal, lookupStatus, exampleRes, exampleStatusFinal]
  · simp [getBal, lookupStatus, exampleRes, exampleStatusFinal]
  · norm_num [exampleRes]

/-- C3 (evaluation at a failing input): on the two-region `normal` run,
region A's final frequency reported by the code is 50, while the claimed
formula `clamp(f + (finalBalance - initialBalance)/initialConsumption *
0.1, 49.8, 50.2)` evaluates to `clamp(50 + (0 - 20)/80 * 0.1) = 1999/40 =
49.975`.  The code's `balance_change` is identically zero because
`balanced_status` is a shallow copy of `initial_status`, so the claimed
formula is never applied. -/
theorem claim3_frequency_eval :
    simulate_load_balancing "normal" exampleRegions rand0 = Except.ok exampleRes ∧
    getFreq exampleRes.balanced_status "A" = 50 ∧
    min (251 / 5 : ℚ) (max (249 / 5)
      (getFreq (buildInitialStatus exampleRegions) "A" +
        (getBal exampleRes.balanced_status "A" - getBal (buildInitialStatus exampleRegions) "A") /
          getCons (buildInitialStatus exampleRegions) "A" * (1 / 10))) = 1999 / 40 ∧
    getFreq exampleRes.balanced_status "A" ≠ 1999 / 40 := by
  refine ⟨exampleRun_eq, ?_, ?_, ?_⟩
  · simp [getFreq, lookupStatus, exampleRes, exampleStatusFinal]
  · have hf : getFreq (buildInitialStatus exampleRegions) "A" = 50 := by
      simp [getFreq, lookupStatus, buildInitialStatus, exampleRegions]
    have hb0 : getBal exampleRes.balanced_status "A" = 0 := by
      simp [getBal, lookupStatus, exampleRes, exampleStatusFinal]
    have hb1 : getBal (buildInitialStatus exampleRegions) "A" = 20 := by
      norm_num [getBal, lookupStatus, buildInitialStatus, exampleRegions]
    have hc : getCons (buildInitialStatus exampleRegions) "A" = 80 := by
      simp [getCons, lookupStatus, buildInitialStatus, exampleRegions]
    rw [hf, hb0, hb1, hc]
    rw [max_eq_right (by norm_num), min_eq_right (by norm_num)]
    norm_num
  · have : getFreq exampleRes.balanced_status "A" = 50 := by
      simp [getFreq, lookupStatus, exampleRes, exampleStatusFinal]
    rw [this]
    norm_num

/-- C4: for every snapshot, scenario and random draw, the greedy
rebalancing pass conserves total system balance: the sum over all regions
of `generation - consumption` taken just before the transfers equals the
sum of the balances after all transfers. -/
theorem claim4_conservation (scen : String) (rand : ScenarioRand)
    (rd : List (String × RegionInput)) (st1 : StatusMap)
    (h : applyScenario scen rand (buildInitialStatus rd) = Except.ok st1) :
    sumGenConsDiff st1 = sumBalance (greedyRebalance st1).1 := by
  rw [sumBalance_greedyRebalance]
  exact (sumBalance_eq_sumGenConsDiff st1
    (balanceFieldInv_applyScenario scen rand _ st1 h
      (balanceFieldInv_buildInitialStatus rd))).symm

theorem claim4_witness :
    sumGenConsDiff exampleStatusPre = sumBalance (greedyRebalance exampleStatusPre).1 :=
  claim4_conservation "normal" rand0 exampleRegions exampleStatusPre exampleApply_eq

/-- C5: whenever the model path of `forecast_demand` succeeds on a valid
history of at least 8 points (valid histories have nonnegative demand, and
a random-forest prediction lies within the range of its training targets,
so the abstract `predict` is assumed nonnegative), the result has exactly
`days` points, the dates increase by exactly one calendar day starting the
day after the last historical date, and every point's bounds are the
rounded 95 and 105 percent of its raw prediction with
`lower_bound ≤ predicted_demand ≤ upper_bound`. -/
theorem claim5_model_path (fit : List FeatureRow → Except String Unit)
    (predict : FeatureVec → Except String ℚ) (now : ℤ)
    (history : List HistPoint) (days : ℕ) (pts : List ForecastPoint)
    (hlen : 8 ≤ history.length) (hdays : 1 ≤ days)
    (hpred : ∀ x p, predict x = Except.ok p → 0 ≤ p)
    (hok : forecast_demand fit predict now history days = ForecastResult.ok pts) :
    pts.length = days ∧
    (∀ (j : ℕ) (hj : j < pts.length),
      (pts.get ⟨j, hj⟩).date = lastHistDate history + (j : ℤ) + 1) ∧
    (∀ pt ∈ pts, ∃ p, 0 ≤ p ∧
      pt.predicted_demand = round2 p ∧
      pt.lower_bound = round2 (p * (95 / 100)) ∧
      pt.upper_bound = round2 (p * (105 / 100)) ∧
      pt.lower_bound ≤ pt.predicted_demand ∧ pt.predicted_demand ≤ pt.upper_bound) := by
  unfold forecast_demand at hok
  cases h1 : train_model fit history with
  | error e => rw [h1] at hok; cases hok
  | ok u =>
    rw [h1] at hok
    dsimp only at hok
    cases h2 : prepare_features history with
    | error e => rw [h2] at hok; cases hok
    | ok rows =>
      rw [h2] at hok
      dsimp only at hok
      cases h3 : forecastLoop predict (lastHistDate history) (rows.getLastD default)
          none 1 days with
      | error e => rw [h3] at hok; cases hok
      | ok pts2 =>
        rw [h3] at hok
        dsimp only at hok
        cases hok
        obtain ⟨hl, hdates, hshape⟩ := forecastLoop_spec predict (lastHistDate history)
          days (rows.getLastD default) none 1 _ h3
        refine ⟨hl, ?_, ?_⟩
        · intro j hj
          rw [hdates j hj]
          push_cast
          ring
        · intro pt hpt
          obtain ⟨x, p, hp, h4, h5, h6⟩ := hshape pt hpt
          have hp0 : 0 ≤ p := hpred x p hp
          obtain ⟨hb1, hb2⟩ := round2_bounds_of_nonneg hp0
          exact ⟨p, hp0, h4, h5, h6, by rw [h4, h5]; exact hb1, by rw [h4, h6]; exact hb2⟩

theorem claim5_witness :
    ([{ date := 8, predicted_demand := 100, lower_bound := 95, upper_bound := 105 },
      { date := 9, predicted_demand := 100, lower_bound := 95, upper_bound := 105 }]
        : List ForecastPoint).length = 2 :=
  (claim5_model_path fit0 pred100 0 history8 2 _ (by decide) (by decide)
    (fun x p hp => by cases hp; norm_num) exampleForecast_eq).1

/-- C6: the fallback forecast for a 7-day horizon — computable from the
call date alone, with no history — has exactly 7 points whose predicted
values follow `320000 + 15000 * (((i % 7) - 3) / 3)` for `i = 1..7`
(explicitly 310000, 315000, 320000, 325000, 330000, 335000, 305000), each
with `lower_bound` and `upper_bound` the rounded 95 and 105 percent of the
predicted value. -/
theorem claim6_fallback (now : ℤ) :
    (get_fallback_forecast now 7).length = 7 ∧
    (get_fallback_forecast now 7).map ForecastPoint.predicted_demand =
      (List.range 7).map (fun i => 320000 + 15000 * ((((i + 1) % 7 : ℕ) : ℚ) - 3) / 3) ∧
    (get_fallback_forecast now 7).map ForecastPoint.predicted_demand =
      [310000, 315000, 320000, 325000, 330000, 335000, 305000] ∧
    (get_fallback_forecast now 7).map ForecastPoint.lower_bound =
      [294500, 299250, 304000, 308750, 313500, 318250, 289750] ∧
    (get_fallback_forecast now 7).map ForecastPoint.upper_bound =
      [325500, 330750, 336000, 341250, 346500, 351750, 320250] := by
  refine ⟨get_fallback_forecast_length now 7, ?_, ?_, ?_, ?_⟩ <;>
    · simp [get_fallback_forecast, fallbackFrom, mkFallbackPoint, List.range, List.range.loop]
      norm_num [round2, roundHalfEven, Int.fract]

/-- C7: after the greedy rebalancing pass, no region that entered it in
surplus ends with a negative balance and no region that entered it in
deficit ends with a positive balance — for every snapshot with distinct
region ids, every scenario and every random draw. -/
theorem claim7_sign_preservation (scen : String) (rand : ScenarioRand)
    (rd : List (String × RegionInput)) (st1 : StatusMap)
    (hnodup : (rd.map Prod.fst).Nodup)
    (h : applyScenario scen rand (buildInitialStatus rd) = Except.ok st1) (k : String) :
    (0 < getBal st1 k → 0 ≤ getBal (greedyRebalance st1).1 k) ∧
    (getBal st1 k < 0 → getBal (greedyRebalance st1).1 k ≤ 0) := by
  apply greedyRebalance_signs
  rw [regionKeys_applyScenario scen rand _ st1 h, regionKeys_buildInitialStatus]
  exact hnodup

theorem claim7_witness :
    0 ≤ getBal (greedyRebalance exampleStatusPre).1 "A" ∧
    getBal (greedyRebalance exampleStatusPre).1 "B" ≤ 0 :=
  ⟨(claim7_sign_preservation "normal" rand0 exampleRegions exampleStatusPre
      (by decide) exampleApply_eq "A").1
      (by rw [show getBal exampleStatusPre "A" = 20 from by
            simp [getBal, lookupStatus, exampleStatusPre]]
          norm_num),
   (claim7_sign_preservation "normal" rand0 exampleRegions exampleStatusPre
      (by decide) exampleApply_eq "B").2
      (by rw [show getBal exampleStatusPre "B" = -40 from by
            simp [getBal, lookupStatus, exampleStatusPre]]
          norm_num)⟩

/-- C8: under the scenario name `normal`, and under any name other than
`peak`, `renewable_surplus` and `outage`, the scenario-perturbation stage
returns the status map derived from the input snapshot completely
unchanged — an unknown name is not an error. -/
theorem claim8_no_perturbation (scen : String) (rand : ScenarioRand)
    (rd : List (String × RegionInput))
    (h1 : scen ≠ "peak") (h2 : scen ≠ "renewable_surplus") (h3 : scen ≠ "outage") :
    applyScenario scen rand (buildInitialStatus rd) = Except.ok (buildInitialStatus rd) := by
  unfold applyScenario
  rw [if_neg h1, if_neg h2, if_neg h3]

theorem claim8_witness :
    applyScenario "some_unknown_scenario_name" rand0 (buildInitialStatus exampleRegions) =
      Except.ok (buildInitialStatus exampleRegions) :=
  claim8_no_perturbation "some_unknown_scenario_name" rand0 exampleRegions
    (by decide) (by decide) (by decide)

/-- C9: `balanced_status = initial_status.copy()` is a shallow copy, so
both result fields expose the same per-region records: on every successful
run `initial_status` equals `balanced_status`, and in particular they
reflect the post-rebalancing state — at the concrete two-region input the
reported initial balance of region A is 0, while its true pre-rebalancing
balance was 20; only the aggregate `metrics.initial_imbalance` (computed
before the copy) preserves the pre-rebalancing information. -/
theorem claim9_shallow_copy_aliasing :
    (∀ (scen : String) (rand : ScenarioRand) (rd : List (String × RegionInput))
      (res : BalancingResult),
      simulate_load_balancing scen rd rand = Except.ok res →
      res.initial_status = res.balanced_status) ∧
    (simulate_load_balancing "normal" exampleRegions rand0 = Except.ok exampleRes ∧
     getBal exampleRes.initial_status "A" = 0 ∧
     getBal (buildInitialStatus exampleRegions) "A" = 20 ∧
     exampleRes.metrics.initial_imbalance = -20) := by
  constructor
  · intro scen rand rd res h
    unfold simulate_load_balancing at h
    cases h1 : applyScenario scen rand (buildInitialStatus rd) with
    | error e => rw [h1] at h; cases h
    | ok st1 =>
      rw [h1] at h
      dsimp only at h
      cases h2 : updateFrequencies (greedyRebalance st1).1 with
      | error e => rw [h2] at h; cases h
      | ok st3 =>
        rw [h2] at h
        dsimp only at h
        cases h
        rfl
  · refine ⟨exampleRun_eq, ?_, ?_, rfl⟩
    · simp [getBal, lookupStatus, exampleRes, exampleStatusFinal]
    · norm_num [getBal, lookupStatus, buildInitialStatus, exampleRegions]

theorem claim9_witness :
    exampleRes.initial_status = exampleRes.balanced_status :=
  claim9_shallow_copy_aliasing.1 "normal" rand0 exampleRegions exampleRes exampleRun_eq

/-- C10: on every successful run, under exact arithmetic,
`metrics.remaining_imbalance` equals `metrics.initial_imbalance` and
`metrics.improvement_percentage` is 0, for every snapshot, scenario and
random draw: transfers subtract and add the same amount to two balances,
so the signed total imbalance is invariant and the improvement formula
degenerates to zero. -/
theorem claim10_improvement_always_zero (scen : String) (rand : ScenarioRand)
    (rd : List (String × RegionInput)) (res : BalancingResult)
    (h : simulate_load_balancing scen rd rand = Except.ok res) :
    res.metrics.remaining_imbalance = res.metrics.initial_imbalance ∧
    res.metrics.improvement_percentage = 0 := by
  unfold simulate_load_balancing at h
  cases h1 : applyScenario scen rand (buildInitialStatus rd) with
  | error e => rw [h1] at h; cases h
  | ok st1 =>
    rw [h1] at h
    dsimp only at h
    cases h2 : updateFrequencies (greedyRebalance st1).1 with
    | error e => rw [h2] at h; cases h
    | ok st3 =>
      rw [h2] at h
      dsimp only at h
      cases h
      have hsum : sumBalance st3 = sumBalance st1 := by
        rw [sumBalance_updateFrequencies (greedyRebalance st1).1 st3 h2,
          sumBalance_greedyRebalance]
      constructor
      · dsimp only
        rw [hsum]
      · dsimp only
        rw [hsum]
        split_ifs with h0
        · rw [sub_self, zero_div, zero_mul, round2_zero]
        · exact round2_zero

theorem claim10_witness :
    exampleRes.metrics.remaining_imbalance = exampleRes.metrics.initial_imbalance ∧
    exampleRes.metrics.improvement_percentage = 0 :=
  claim10_improvement_always_zero "normal" rand0 exampleRegions exampleRes exampleRun_eq
